import Mathlib

/-!
Verification of the FDA-Devices repository against its specification.

The embedding below translates the relevant Python modules into Lean:
  * `src/testing/data_relationships.py` (device profiles, risk score, timeline),
  * `src/fda_data.py` (result normalization, date-window filtering),
  * `src/testing/data_retrieval_enhanced.py` (paginated multi-strategy retrieval).

Pandas cell values are modelled by the inductive `Value` (null covers both
Python None and NaN), a record / row by an association list, and a DataFrame
by a list of columns plus a list of rows.  Dates are modelled as natural
numbers: an ISO date string "YYYY-MM-DD" parses to the number yyyymmdd, whose
numeric order coincides with chronological order.
-/

namespace FDA

/-- A pandas cell value: null (None/NaN), a string, a numeric scalar, or a
list (the openFDA list-valued fields, such as product problems, carry
strings). -/
inductive Value where
  | vNull
  | vStr (s : String)
  | vNat (n : Nat)
  | vList (xs : List String)
deriving DecidableEq, Repr

/-- A record (a decoded JSON object or a DataFrame row): an association list
from field names to values.  A field can be genuinely absent (no binding) or
present and null. -/
abbrev Row := List (String × Value)

/-- Look a key up in a row; `none` models a missing field. -/
def Row.find (r : Row) (k : String) : Option Value :=
  (List.find? (fun kv => kv.1 == k) r).map (fun kv => kv.2)

/-- Models `row.get(key)` on a pandas Series or dict: None when missing. -/
def Row.get (r : Row) (k : String) : Value :=
  (Row.find r k).getD .vNull

/-- Models `row.get(key, default)`: the default only when the key is missing. -/
def Row.getD (r : Row) (k : String) (d : Value) : Value :=
  (Row.find r k).getD d

/-- Models `pd.notna(v)` on a scalar value: false exactly on None/NaN. -/
def Value.notna : Value → Bool
  | .vNull => false
  | _ => true

/-- Models Python `str(v)`.  `str(None)` is the four-letter string None; the
rendering of a list value is irrelevant to every claim below. -/
def Value.pyStr : Value → String
  | .vNull => "None"
  | .vStr s => s
  | .vNat n => toString n
  | .vList _ => "[...]"

/-- Models Python truthiness of a value. -/
def Value.truthy : Value → Bool
  | .vNull => false
  | .vStr s => s != ""
  | .vNat n => n != 0
  | .vList xs => xs != []

/-- Does `hay` start with `needle`? (character lists) -/
def startsWithCh : List Char → List Char → Bool
  | _, [] => true
  | [], _ :: _ => false
  | h :: hs, n :: ns => h == n && startsWithCh hs ns

/-- Does `hay` contain `needle` as a contiguous run? (character lists) -/
def hasSubstrCh (needle : List Char) : List Char → Bool
  | [] => startsWithCh [] needle
  | h :: t => startsWithCh (h :: t) needle || hasSubstrCh needle t

/-- Models the Python membership test `needle in hay` on strings. -/
def pyIn (needle hay : String) : Bool :=
  hasSubstrCh needle.toList hay.toList

/-- Upper-case a string (models `source.upper()`); written over the
character list so that it evaluates inside the kernel. -/
def strUpper (s : String) : String :=
  String.mk (s.toList.map Char.toUpper)

/-- Lower-case a string (models `source.lower()`). -/
def strLower (s : String) : String :=
  String.mk (s.toList.map Char.toLower)

/-- Decimal digits to a natural number. -/
def digitsToNat (cs : List Char) : Nat :=
  cs.foldl (fun a c => a * 10 + (c.toNat - 48)) 0

/-- Parse an ISO date string "YYYY-MM-DD" to the number yyyymmdd; `none` on
any other shape.  This models the date formats the openFDA endpoints emit;
strings pandas cannot parse are modelled by the `none` branch. -/
def parseIsoDate (s : String) : Option Nat :=
  match s.toList with
  | [y1, y2, y3, y4, h1, m1, m2, h2, d1, d2] =>
    if h1 == '-' && h2 == '-' && ([y1, y2, y3, y4, m1, m2, d1, d2].all Char.isDigit) then
      some (digitsToNat [y1, y2, y3, y4, m1, m2, d1, d2])
    else none
  | _ => none

/-- Models `pd.to_datetime(v)` with the default errors="raise": a parseable
value yields a timestamp, an unparseable one raises (the `error` branch).
The processors below only call it under a `notna` guard, so the null case is
unreachable there. -/
def pdToDatetime : Value → Except String Nat
  | .vStr s =>
    match parseIsoDate s with
    | some n => .ok n
    | none => .error "could not parse date string"
  | .vNat n => .ok n
  | _ => .error "invalid date value"

/-- Models `pd.to_datetime(v, errors="coerce")`: NaT (null) instead of an
error on an unparseable value. -/
def pdToDatetimeCoerce (v : Value) : Value :=
  match pdToDatetime v with
  | .ok n => .vNat n
  | .error _ => .vNull

/-- One timeline entry `(date, event_type, description)`. -/
structure TimelineEntry where
  date : Nat
  eventType : String
  description : String
deriving DecidableEq, Repr

/-- The `DeviceProfile` dataclass.  The Python sets `manufacturers` and
`product_codes` are modelled as duplicate-free lists built by `setInsert`;
the float `risk_score` is a natural number because every contribution in
`_calculate_risk_score` is integral. -/
structure DeviceProfile where
  device_name : String
  manufacturers : List Value
  product_codes : List Value
  clearances : List Row
  approvals : List Row
  recalls : List Row
  adverse_events : List Row
  classifications : List Row
  risk_score : Nat
  timeline : List TimelineEntry
deriving DecidableEq, Repr

/-- Models `set.add`: insert if not already present. -/
def setInsert (s : List Value) (x : Value) : List Value :=
  if x ∈ s then s else s ++ [x]

/-- The per-recall penalty of `_calculate_risk_score`: the branches test, in
source order, the substring "I", then "II", then "III" against
`str(recall.get("recall_classification", ""))`. -/
def recallPenalty (rcl : Row) : Nat :=
  let classification := (Row.getD rcl "recall_classification" (.vStr "")).pyStr
  if pyIn "I" classification then 30
  else if pyIn "II" classification then 15
  else if pyIn "III" classification then 5
  else 0

/-- Count of adverse events whose flag equals "Y". -/
def seriousEventCount (events : List Row) : Nat :=
  (events.filter (fun e => Row.get e "adverse_event_flag" == Value.vStr "Y")).length

/-- The one-shot +10 bonus when some classification has device class III/3. -/
def deviceClassBonus (classifications : List Row) : Nat :=
  if classifications.any (fun c =>
      Row.get c "device_class" == Value.vStr "III" || Row.get c "device_class" == Value.vStr "3")
  then 10 else 0

/-- Models `DataRelationshipMapper._calculate_risk_score`: recall penalties
plus two points per flagged adverse event plus the device-class bonus,
clamped to 100. -/
def calculateRiskScore (p : DeviceProfile) : Nat :=
  min ((p.recalls.map recallPenalty).sum
       + 2 * seriousEventCount p.adverse_events
       + deviceClassBonus p.classifications) 100

/-- Models Python slicing `v[:50]`: defined on strings and lists, a TypeError
(the `error` branch) on None and on numeric scalars. -/
def pySlice50 : Value → Except String Value
  | .vStr s => .ok (.vStr (s.take 50))
  | .vList xs => .ok (.vList (xs.take 50))
  | _ => .error "value does not support slicing"

/-- Models the try/except normalization of `product_problems` in
`_process_event_data`.  Note the list cases: `pd.isna` applied to a list
returns an element-wise array, whose use in `if` raises ValueError for two
or more elements; the except clause catches it and substitutes the
placeholder, so only a one-element list is ever joined (the join of one
element is that element).  An empty list reaches the join with falsy
truthiness and also yields the placeholder. -/
def normalizeProblem : Value → String
  | .vNull => "Adverse event"
  | .vStr s => s
  | .vList [] => "Adverse event"
  | .vList [x] => x
  | .vList (_ :: _ :: _) => "Adverse event"
  | .vNat n => if n != 0 then toString n else "Adverse event"

/-- Models the body of the row loop of `_process_510k_data`. -/
def process510kRow (row : Row) (p : DeviceProfile) : Except String DeviceProfile := do
  let p := if (Row.get row "applicant").notna then
      { p with manufacturers := setInsert p.manufacturers (Row.get row "applicant") } else p
  let p := if (Row.get row "product_code").notna then
      { p with product_codes := setInsert p.product_codes (Row.get row "product_code") } else p
  let clearance : Row := [
    ("k_number", Row.get row "k_number"),
    ("device_name", Row.get row "device_name"),
    ("decision_date", Row.get row "decision_date"),
    ("applicant", Row.get row "applicant"),
    ("clearance_type", Row.get row "clearance_type"),
    ("product_code", Row.get row "product_code")]
  let p := { p with clearances := p.clearances ++ [clearance] }
  if (Row.get row "decision_date").notna then do
    let date ← pdToDatetime (Row.get row "decision_date")
    let description := "510K Clearance: " ++ (Row.getD row "device_name" (.vStr "Device")).pyStr
        ++ " by " ++ (Row.getD row "applicant" (.vStr "Unknown")).pyStr
    pure { p with timeline := p.timeline ++ [⟨date, "510K_CLEARANCE", description⟩] }
  else
    pure p

/-- Models the body of the row loop of `_process_pma_data`. -/
def processPmaRow (row : Row) (p : DeviceProfile) : Except String DeviceProfile := do
  let p := if (Row.get row "applicant").notna then
      { p with manufacturers := setInsert p.manufacturers (Row.get row "applicant") } else p
  let p := if (Row.get row "product_code").notna then
      { p with product_codes := setInsert p.product_codes (Row.get row "product_code") } else p
  let approval : Row := [
    ("pma_number", Row.get row "pma_number"),
    ("trade_name", Row.get row "trade_name"),
    ("decision_date", Row.get row "decision_date"),
    ("applicant", Row.get row "applicant"),
    ("supplement_reason", Row.get row "supplement_reason")]
  let p := { p with approvals := p.approvals ++ [approval] }
  if (Row.get row "decision_date").notna then do
    let date ← pdToDatetime (Row.get row "decision_date")
    let description := "PMA Approval: " ++ (Row.getD row "trade_name" (.vStr "Device")).pyStr
        ++ " by " ++ (Row.getD row "applicant" (.vStr "Unknown")).pyStr
    pure { p with timeline := p.timeline ++ [⟨date, "PMA_APPROVAL", description⟩] }
  else
    pure p

/-- Models the body of the row loop of `_process_recall_data`. -/
def processRecallRow (row : Row) (p : DeviceProfile) : Except String DeviceProfile := do
  let p := if (Row.get row "recalling_firm").notna then
      { p with manufacturers := setInsert p.manufacturers (Row.get row "recalling_firm") } else p
  let rcl : Row := [
    ("event_date", Row.get row "event_date_initiated"),
    ("recalling_firm", Row.get row "recalling_firm"),
    ("product_description", Row.get row "product_description"),
    ("recall_classification", Row.get row "recall_classification"),
    ("reason_for_recall", Row.get row "reason_for_recall"),
    ("recall_status", Row.get row "recall_status")]
  let p := { p with recalls := p.recalls ++ [rcl] }
  if (Row.get row "event_date_initiated").notna then do
    let date ← pdToDatetime (Row.get row "event_date_initiated")
    let classification := Row.getD row "recall_classification" (.vStr "Unknown")
    let reason := Row.getD row "reason_for_recall" (.vStr "Unspecified")
    let sliced ← pySlice50 reason
    let description := "Class " ++ classification.pyStr ++ " Recall: " ++ sliced.pyStr ++ "..."
    pure { p with timeline := p.timeline ++ [⟨date, "RECALL", description⟩] }
  else
    pure p

/-- Models the body of the row loop of `_process_event_data`. -/
def processEventRow (row : Row) (p : DeviceProfile) : Except String DeviceProfile := do
  let p := if (Row.get row "manufacturer_name").notna then
      { p with manufacturers := setInsert p.manufacturers (Row.get row "manufacturer_name") } else p
  let event : Row := [
    ("report_number", Row.get row "report_number"),
    ("date_received", Row.get row "date_received"),
    ("event_type", Row.get row "event_type"),
    ("manufacturer_name", Row.get row "manufacturer_name"),
    ("product_problems", Row.get row "product_problems"),
    ("adverse_event_flag", Row.get row "adverse_event_flag"),
    ("patient_outcomes", Row.get row "patient_outcomes"),
    ("device_brand", Row.get row "device.brand_name")]
  let p := { p with adverse_events := p.adverse_events ++ [event] }
  if (Row.get row "date_received").notna then do
    let date ← pdToDatetime (Row.get row "date_received")
    let problem := normalizeProblem (Row.getD row "product_problems" (.vStr "Adverse event"))
    let description := "Adverse Event: " ++ problem.take 50 ++ "..."
    pure { p with timeline := p.timeline ++ [⟨date, "ADVERSE_EVENT", description⟩] }
  else
    pure p

/-- Models the body of the row loop of `_process_classification_data`
(no date handling, hence no error path). -/
def processClassificationRow (row : Row) (p : DeviceProfile) : DeviceProfile :=
  let p := if (Row.get row "product_code").notna then
      { p with product_codes := setInsert p.product_codes (Row.get row "product_code") } else p
  let classification : Row := [
    ("device_name", Row.get row "device_name"),
    ("device_class", Row.get row "device_class"),
    ("product_code", Row.get row "product_code"),
    ("medical_specialty", Row.get row "medical_specialty_description"),
    ("regulation_number", Row.get row "regulation_number")]
  { p with classifications := p.classifications ++ [classification] }

/-- Dispatch of `create_comprehensive_profile` on the source name. -/
def processSource (source : String) (df : List Row) (p : DeviceProfile) :
    Except String DeviceProfile :=
  if source == "510K" then df.foldlM (fun p r => process510kRow r p) p
  else if source == "PMA" then df.foldlM (fun p r => processPmaRow r p) p
  else if source == "RECALL" then df.foldlM (fun p r => processRecallRow r p) p
  else if source == "EVENT" then df.foldlM (fun p r => processEventRow r p) p
  else if source == "CLASSIFICATION" then
    .ok (df.foldl (fun p r => processClassificationRow r p) p)
  else .ok p

/-- The fresh profile `create_comprehensive_profile` starts from. -/
def emptyProfile (query : String) : DeviceProfile :=
  ⟨query, [], [], [], [], [], [], [], 0, []⟩

/-- The source-processing phase of `create_comprehensive_profile`: fold over
the input map (as an ordered list of source/table pairs), skipping empty
tables.  The identifier extraction of `_extract_device_identifiers` is
computed by the Python code but never read by any row processor, so it does
not appear here. -/
def createProfileCore (fdaData : List (String × List Row)) (primaryQuery : String) :
    Except String DeviceProfile :=
  fdaData.foldlM (fun p sd => if sd.2 == ([] : List Row) then .ok p else processSource sd.1 sd.2 p)
    (emptyProfile primaryQuery)

/-- One step of a stable insertion sort of the timeline by date. -/
def tlInsert (x : TimelineEntry) : List TimelineEntry → List TimelineEntry
  | [] => [x]
  | y :: ys => if x.date ≤ y.date then x :: y :: ys else y :: tlInsert x ys

/-- Models `profile.timeline.sort(key=...)`: Python sorting is stable, and a
stable ascending sort is computed uniquely by this insertion sort.  Every
appended entry carries a real parsed timestamp, so the null guard inside the
Python key function is never taken. -/
def sortTimeline : List TimelineEntry → List TimelineEntry
  | [] => []
  | x :: xs => tlInsert x (sortTimeline xs)

/-- Models `DataRelationshipMapper.create_comprehensive_profile`: process
every source, compute the risk score (which reads only the recall, event and
classification lists), then sort the timeline. -/
def createComprehensiveProfile (fdaData : List (String × List Row)) (primaryQuery : String) :
    Except String DeviceProfile :=
  match createProfileCore fdaData primaryQuery with
  | .error e => .error e
  | .ok p => .ok { p with risk_score := calculateRiskScore p,
                          timeline := sortTimeline p.timeline }

/-! ### DataFrames, `process_results` and `filter_by_date` (src/fda_data.py) -/

/-- A DataFrame: a list of column names plus a list of rows.  A cell is read
with `Row.get`, so a key a row does not bind reads as null (NaN). -/
structure Table where
  cols : List String
  rows : List Row
deriving DecidableEq, Repr

/-- The empty DataFrame. -/
def Table.empty : Table := ⟨[], []⟩

/-- The `DISPLAY_COLUMNS` constant: the expected field set per source,
looked up by the upper-cased source name, defaulting to the empty list. -/
def displayColumns (source : String) : List String :=
  let s := strUpper source
  if s == "510K" then
    ["k_number", "device_name", "decision_date", "decision_description", "applicant",
     "product_code", "clearance_type"]
  else if s == "PMA" then
    ["pma_number", "supplement_number", "trade_name", "generic_name", "decision_date",
     "supplement_reason", "applicant", "product_code"]
  else if s == "CLASSIFICATION" then
    ["device_name", "classification_name", "product_code", "device_class",
     "regulation_number", "medical_specialty_description"]
  else if s == "UDI" then
    ["brand_name", "device_description", "company_name", "device_identifier",
     "version_or_model_number", "device_status"]
  else if s == "RECALL" then
    ["event_date_initiated", "recalling_firm", "product_description", "recall_status",
     "reason_for_recall"]
  else if s == "EVENT" then
    ["report_number", "event_type", "date_received", "date_of_event",
     "manufacturer_name", "product_problems", "adverse_event_flag",
     "remedial_action", "event_location", "reporter_occupation_code",
     "device.brand_name", "device.generic_name", "device.device_report_product_code"]
  else []

/-- The field names a record binds, in order. -/
def rowKeys (r : Row) : List String := r.map (fun kv => kv.1)

/-- The columns `pd.json_normalize` produces: the union of the keys of all
records, in first-seen order. -/
def unionKeys (results : List Row) : List String :=
  results.foldl (fun acc r => acc ++ (rowKeys r).filter (fun k => k ∉ acc)) []

/-- Models `pd.json_normalize(results, sep=".")` on flat records: one row
per record, columns the union of the record keys. -/
def jsonNormalize (results : List Row) : Table :=
  ⟨unionKeys results, results⟩

/-- Models `add_missing_columns`: every expected column not present is
appended and filled with null (`df[col] = None`); nothing is dropped. -/
def addMissingColumns (t : Table) (source : String) : Table :=
  let missing := (displayColumns source).filter (fun c => c ∉ t.cols)
  ⟨t.cols ++ missing, t.rows.map (fun r => r ++ missing.map (fun c => (c, Value.vNull)))⟩

/-- Models `process_results(data, source)` from src/fda_data.py for decoded
responses whose records do not carry the nested keys openfda, device,
patient or remedial_action (on such records the openfda copy loop and
`process_event_data` are the identity).  `none` models both a falsy `data`
and a response without a results key, on which the function returns an
empty DataFrame. -/
def processResults (data : Option (List Row)) (source : String) : Table :=
  match data with
  | none => Table.empty
  | some results => addMissingColumns (jsonNormalize results) source

/-- The per-source date field of `filter_by_date` (upper-cased lookup). -/
def filterDateField (source : String) : Option String :=
  let s := strUpper source
  if s == "RECALL" then some "event_date_initiated"
  else if s == "EVENT" then some "date_received"
  else if s == "PMA" || s == "510K" then some "decision_date"
  else none

/-- Write one field of a row, models assigning one cell of a DataFrame
column: replaces the binding when present, appends it otherwise. -/
def rowSet (r : Row) (k : String) (v : Value) : Row :=
  if (Row.find r k).isSome then r.map (fun kv => if kv.1 == k then (kv.1, v) else kv)
  else r ++ [(k, v)]

/-- Models the in-place column assignment
`df[field] = pd.to_datetime(df[field], errors="coerce")`: every cell of the
column is replaced by its parsed timestamp, null (NaT) when unparseable. -/
def convertDateColumn (t : Table) (field : String) : Table :=
  ⟨if field ∈ t.cols then t.cols else t.cols ++ [field],
   t.rows.map (fun r => rowSet r field (pdToDatetimeCoerce (Row.get r field)))⟩

/-- The comparison `timestamp >= cutoff_date` after coercion: NaT (null)
compares false. -/
def dateGe (v : Value) (cutoff : Nat) : Bool :=
  match v with
  | .vNat n => cutoff ≤ n
  | _ => false

/-- Models `filter_by_date(df, source, months)`.  The cutoff instant
`datetime.now() - timedelta(days=months * 30)` is passed as an abstract
timestamp parameter.  The Python function assigns the converted date column
onto the very DataFrame object the caller passed in, so the embedding
returns a pair: the state of the callers table after the call, and the
returned filtered table. -/
def filterByDate (t : Table) (source : String) (cutoff : Nat) : Table × Table :=
  match filterDateField source with
  | none => (t, t)
  | some field =>
    if field ∈ t.cols then
      let mutated := convertDateColumn t field
      (mutated, ⟨mutated.cols, mutated.rows.filter (fun r => dateGe (Row.get r field) cutoff)⟩)
    else (t, t)

/-! ### Enhanced retrieval (src/testing/data_retrieval_enhanced.py) -/

/-- A stubbed network layer for `get_comprehensive_data`: maps a search
query, a skip offset and a limit to the decoded result list of the response;
`none` models a failed request or a response without a results key. -/
abbrev Net := String → Nat → Nat → Option (List Row)

/-- One network call record: (search query, skip, limit). -/
abbrev Call := String × Nat × Nat

/-- Models the inner while loop of `get_comprehensive_data` for one search
strategy: while the accumulated count is below the budget, request a page of
`min(100, max_records - len(all_results))` records, stop on an invalid or
empty response, extend the accumulator, and stop when the page is shorter
than the constant page size 100 (end of data).  Every network call is
appended to `log`.  `fuel` bounds the recursion; every claim below holds
for every fuel value. -/
def fetchLoop (net : Net) (q : String) (maxRecords : Nat)
    (acc : List Row) (log : List Call) (skip : Nat) : Nat → List Row × List Call
  | 0 => (acc, log)
  | fuel + 1 =>
    if acc.length < maxRecords then
      let lim := min 100 (maxRecords - acc.length)
      let log := log ++ [(q, skip, lim)]
      match net q skip lim with
      | none => (acc, log)
      | some [] => (acc, log)
      | some rs =>
        let acc := acc ++ rs
        if rs.length < 100 then (acc, log)
        else fetchLoop net q maxRecords acc log (skip + 100) fuel
    else (acc, log)

/-- Models the outer strategy loop of `get_comprehensive_data`: run the
strategies in order, stopping early as soon as the accumulated count after a
strategy reaches 80 percent of the budget (the Python comparison
`len(all_results) >= max_records * 0.8`; for the integer counts involved the
float threshold coincides with the exact rational one modelled here). -/
def strategyLoop (net : Net) (maxRecords : Nat) (queries : List String)
    (acc : List Row) (log : List Call) (fuel : Nat) : List Row × List Call :=
  match queries with
  | [] => (acc, log)
  | q :: rest =>
    let r := fetchLoop net q maxRecords acc log 0 fuel
    if 10 * r.1.length ≥ 8 * maxRecords then r
    else strategyLoop net maxRecords rest r.1 r.2 fuel

/-- The `_standardize_dates` field table of the enhanced retriever. -/
def standardDateFields (source : String) : List String :=
  let s := strLower source
  if s == "event" then ["date_received", "date_of_event"]
  else if s == "recall" then ["event_date_initiated", "recall_initiation_date"]
  else if s == "510k" then ["decision_date", "date_received"]
  else if s == "pma" then ["decision_date", "date_received"]
  else []

/-- Models `EnhancedFDARetriever._process_results` for records without the
nested event keys: empty on no results, otherwise normalize, standardize the
date columns that exist, and add the source and retrieved_at metadata
columns (`datetime.now()` is the abstract timestamp `now`).  Every step
keeps one row per accumulated record. -/
def processResultsEnh (results : List Row) (source : String) (now : Nat) : Table :=
  if results == ([] : List Row) then Table.empty
  else
    let t := jsonNormalize results
    let t := (standardDateFields source).foldl
      (fun t f => if f ∈ t.cols then convertDateColumn t f else t) t
    ⟨t.cols ++ ["source", "retrieved_at"],
     t.rows.map (fun r =>
       rowSet (rowSet r "source" (.vStr (strUpper source))) "retrieved_at" (.vNat now))⟩

/-- The keys of the `FDA_ENDPOINTS` table of the enhanced retriever. -/
def fdaEndpointSources : List String :=
  ["510k", "event", "recall", "classification", "pma", "udi"]

/-- Models `EnhancedFDARetriever.get_comprehensive_data` against a stubbed
network layer; `queries` stands for the strategy list built by
`_build_comprehensive_search`.  Returns the resulting table together with
the log of the network calls made. -/
def getComprehensiveData (net : Net) (source : String) (queries : List String)
    (maxRecords fuel now : Nat) : Table × List Call :=
  if strLower source ∈ fdaEndpointSources then
    let r := strategyLoop net maxRecords queries [] [] fuel
    (processResultsEnh r.1 source now, r.2)
  else (Table.empty, [])

/-! ### Theorems -/

/-- Insertion permutes the inserted element into the list. -/
theorem tlInsert_perm (x : TimelineEntry) (l : List TimelineEntry) :
    List.Perm (tlInsert x l) (x :: l) := by
  induction l with
  | nil => simp [tlInsert]
  | cons y ys ih =>
    by_cases h : x.date ≤ y.date
    · simp [tlInsert, h]
    · rw [tlInsert, if_neg h]
      exact (ih.cons y).trans (List.Perm.swap x y ys)

/-- Inserting into an ascending timeline keeps it ascending. -/
theorem tlInsert_pairwise (x : TimelineEntry) (l : List TimelineEntry)
    (h : l.Pairwise (fun a b => a.date ≤ b.date)) :
    (tlInsert x l).Pairwise (fun a b => a.date ≤ b.date) := by
  induction l with
  | nil => simp [tlInsert]
  | cons y ys ih =>
    rw [List.pairwise_cons] at h
    by_cases hxy : x.date ≤ y.date
    · rw [tlInsert, if_pos hxy, List.pairwise_cons]
      refine ⟨?_, List.pairwise_cons.mpr h⟩
      intro b hb
      rcases List.mem_cons.mp hb with rfl | hb
      · exact hxy
      · exact le_trans hxy (h.1 b hb)
    · rw [tlInsert, if_neg hxy, List.pairwise_cons]
      refine ⟨?_, ih h.2⟩
      intro b hb
      rcases List.mem_cons.mp ((tlInsert_perm x ys).mem_iff.mp hb) with rfl | hb
      · omega
      · exact h.1 b hb

/-- Stability of one insertion step: filtering at any timestamp, the
inserted element lands in front of the retained elements exactly when it
carries that timestamp, because every element it is inserted behind has a
strictly smaller timestamp. -/
theorem tlInsert_filter (d : Nat) (x : TimelineEntry) (l : List TimelineEntry) :
    (tlInsert x l).filter (fun e => e.date == d)
      = (if x.date == d then [x] else []) ++ l.filter (fun e => e.date == d) := by
  induction l with
  | nil =>
    by_cases hx : x.date = d <;> simp [tlInsert, hx]
  | cons y ys ih =>
    by_cases hxy : x.date ≤ y.date
    · rw [tlInsert, if_pos hxy]
      by_cases hx : x.date = d <;> simp [List.filter_cons, hx]
    · rw [tlInsert, if_neg hxy, List.filter_cons]
      by_cases hy : y.date = d
      · have hx : ¬ x.date = d := by omega
        simp [hx, hy, ih]
      · by_cases hx : x.date = d <;> simp [hx, hy, ih]

/-- The sorted timeline is ascending. -/
theorem sortTimeline_pairwise (l : List TimelineEntry) :
    (sortTimeline l).Pairwise (fun a b => a.date ≤ b.date) := by
  induction l with
  | nil => simp [sortTimeline]
  | cons x xs ih => exact tlInsert_pairwise x (sortTimeline xs) ih

/-- Stability of the timeline sort: filtering at any timestamp commutes
with sorting, so entries with equal timestamps keep their original order. -/
theorem sortTimeline_filter (d : Nat) (l : List TimelineEntry) :
    (sortTimeline l).filter (fun e => e.date == d) = l.filter (fun e => e.date == d) := by
  induction l with
  | nil => simp [sortTimeline]
  | cons x xs ih =>
    rw [sortTimeline, tlInsert_filter, ih, List.filter_cons]
    by_cases hx : x.date = d <;> simp [hx]

/-- Claim C1 (code bug evaluation): the claim states that Class detection on
the recall classification text is most-specific-first, so that "Class III"
contributes +5 and "Class II" contributes +15.  The code tests the substring
"I" first, which also matches inside "II" and "III", so both classification
texts contribute +30; the "II" and "III" branches are unreachable.  This
theorem evaluates the embedded code at the failing inputs. -/
theorem c1_risk_branches_evaluation :
    recallPenalty [("recall_classification", Value.vStr "Class III")] = 30
    ∧ recallPenalty [("recall_classification", Value.vStr "Class II")] = 30
    ∧ calculateRiskScore { emptyProfile "q" with
        recalls := [[("recall_classification", Value.vStr "Class III")]] } = 30 := by
  decide

/-- Claim C2 (code bug evaluation): on the scenario of one clearance
(2024-01-10, Acme Corp, LZG), one Class II recall (2024-03-01, Acme Corp)
and one flagged adverse event (2024-02-15, Acme Corp), the profile has the
claimed manufacturers, product codes and sorted three-entry timeline, but
its risk score is 32 (30 from the recall via the misordered "I" branch plus
2 for the flagged event), not the claimed 17. -/
theorem c2_scenario_evaluation :
    (createComprehensiveProfile
      [("510K", [[("decision_date", Value.vStr "2024-01-10"),
                  ("applicant", Value.vStr "Acme Corp"),
                  ("product_code", Value.vStr "LZG")]]),
       ("RECALL", [[("event_date_initiated", Value.vStr "2024-03-01"),
                    ("recall_classification", Value.vStr "Class II"),
                    ("recalling_firm", Value.vStr "Acme Corp")]]),
       ("EVENT", [[("date_received", Value.vStr "2024-02-15"),
                   ("adverse_event_flag", Value.vStr "Y"),
                   ("manufacturer_name", Value.vStr "Acme Corp")]])]
      "insulin pump").map (fun p =>
        (p.manufacturers, p.product_codes, p.risk_score, p.timeline.map (fun e => e.date)))
    = Except.ok ([Value.vStr "Acme Corp"], [Value.vStr "LZG"], 32,
        [20240110, 20240215, 20240301]) := by
  rfl

/-- Claim C3: the stored risk score is monotone in qualifying recalls and
flagged adverse events, clamped at 100, and ten Class-I recalls (raw sum
300) store exactly 100. -/
theorem c3_risk_score_monotone_bounded :
    (∀ (p : DeviceProfile) (r : Row),
      calculateRiskScore p ≤ calculateRiskScore { p with recalls := p.recalls ++ [r] })
    ∧ (∀ (p : DeviceProfile) (e : Row), Row.get e "adverse_event_flag" = Value.vStr "Y" →
      calculateRiskScore p ≤ calculateRiskScore
        { p with adverse_events := p.adverse_events ++ [e] })
    ∧ (∀ p : DeviceProfile, calculateRiskScore p ≤ 100)
    ∧ ((List.replicate 10 ([("recall_classification", Value.vStr "I")] : Row)).map
        recallPenalty).sum = 300
    ∧ calculateRiskScore { emptyProfile "q" with
        recalls := List.replicate 10 [("recall_classification", Value.vStr "I")] } = 100 := by
  refine ⟨?_, ?_, ?_, by decide, by decide⟩
  · intro p r
    unfold calculateRiskScore
    simp only [List.map_append, List.sum_append, List.map_cons, List.sum_cons,
      List.map_nil, List.sum_nil]
    exact min_le_min (by omega) le_rfl
  · intro p e _
    unfold calculateRiskScore seriousEventCount
    simp only [List.filter_append, List.length_append]
    exact min_le_min (by omega) le_rfl
  · intro p
    exact min_le_right _ _

/-- Claim C4: for every source map (hence every processing order of the
sources) on which profile construction succeeds, the returned timeline is
ascending by timestamp, and the sort is stable: filtering the returned
timeline to any fixed timestamp yields exactly the entries that per-source
processing appended at that timestamp, in their append order. -/
theorem c4_timeline_sorted_stable (fdaData : List (String × List Row)) (q : String)
    (p₀ p : DeviceProfile)
    (h₀ : createProfileCore fdaData q = Except.ok p₀)
    (h : createComprehensiveProfile fdaData q = Except.ok p) :
    p.timeline.Pairwise (fun a b => a.date ≤ b.date)
    ∧ ∀ d : Nat, p.timeline.filter (fun e => e.date == d)
        = p₀.timeline.filter (fun e => e.date == d) := by
  have hp : p = { p₀ with risk_score := calculateRiskScore p₀,
                          timeline := sortTimeline p₀.timeline } := by
    unfold createComprehensiveProfile at h
    rw [h₀] at h
    exact ((Except.ok.injEq _ _).mp h).symm
  subst hp
  exact ⟨sortTimeline_pairwise p₀.timeline, fun d => sortTimeline_filter d p₀.timeline⟩

set_option maxRecDepth 10000 in
/-- Witness for C4 at a one-recall input on which profile construction
succeeds. -/
theorem c4_timeline_sorted_stable_witness :
    ([⟨20240301, "RECALL", "Class Unknown Recall: Unspecified..."⟩]
      : List TimelineEntry).Pairwise (fun a b => a.date ≤ b.date) := by
  have h := c4_timeline_sorted_stable
    [("RECALL", [[("event_date_initiated", Value.vStr "2024-03-01")]])] "q"
    ⟨"q", [], [], [], [],
      [[("event_date", Value.vStr "2024-03-01"), ("recalling_firm", Value.vNull),
        ("product_description", Value.vNull), ("recall_classification", Value.vNull),
        ("reason_for_recall", Value.vNull), ("recall_status", Value.vNull)]],
      [], [], 0, [⟨20240301, "RECALL", "Class Unknown Recall: Unspecified..."⟩]⟩
    ⟨"q", [], [], [], [],
      [[("event_date", Value.vStr "2024-03-01"), ("recalling_firm", Value.vNull),
        ("product_description", Value.vNull), ("recall_classification", Value.vNull),
        ("reason_for_recall", Value.vNull), ("recall_status", Value.vNull)]],
      [], [], 0, [⟨20240301, "RECALL", "Class Unknown Recall: Unspecified..."⟩]⟩
    (by rfl) (by rfl)
  exact h.1

/-- Claim C5 counterexample: a clearance record whose decision date is
present but unparseable makes profile construction raise (the default
errors="raise" of `pd.to_datetime`); the error propagates to the caller,
refuting "appends no timeline entry and raises no error" for unparseable
dates. -/
theorem c5_counterexample :
    createComprehensiveProfile [("510K", [[("decision_date", Value.vStr "garbage")]])] "q"
      = Except.error "could not parse date string" := by
  rfl

/-- Claim C5 as amended: a record whose source-specific date field is
missing or null contributes no timeline entry and raises no error, in each
of the four dated processors; but a record whose date field is present and
unparseable makes the processor raise, and the error propagates instead of
being recovered locally. -/
theorem c5_missing_date_skipped (row : Row) (p : DeviceProfile) :
    ((Row.get row "decision_date").notna = false →
      (∃ p2, process510kRow row p = Except.ok p2 ∧ p2.timeline = p.timeline)
      ∧ (∃ p2, processPmaRow row p = Except.ok p2 ∧ p2.timeline = p.timeline))
    ∧ ((Row.get row "event_date_initiated").notna = false →
      ∃ p2, processRecallRow row p = Except.ok p2 ∧ p2.timeline = p.timeline)
    ∧ ((Row.get row "date_received").notna = false →
      ∃ p2, processEventRow row p = Except.ok p2 ∧ p2.timeline = p.timeline)
    ∧ (∀ s, Row.get row "decision_date" = Value.vStr s → parseIsoDate s = none →
      process510kRow row p = Except.error "could not parse date string") := by
  refine ⟨fun h => ⟨?_, ?_⟩, fun h => ?_, fun h => ?_, fun s hs hp => ?_⟩
  · unfold process510kRow
    rw [h]
    exact ⟨_, rfl, by split_ifs <;> rfl⟩
  · unfold processPmaRow
    rw [h]
    exact ⟨_, rfl, by split_ifs <;> rfl⟩
  · unfold processRecallRow
    rw [h]
    exact ⟨_, rfl, by split_ifs <;> rfl⟩
  · unfold processEventRow
    rw [h]
    exact ⟨_, rfl, by split_ifs <;> rfl⟩
  · unfold process510kRow
    rw [hs]
    simp [pdToDatetime, hp, Value.notna, Except.bind]

set_option maxRecDepth 10000 in
/-- Witness for C5: a record with no date field is skipped without error,
and one with the unparseable date "garbage" raises. -/
theorem c5_missing_date_skipped_witness :
    (∃ p2, processRecallRow [] (emptyProfile "q") = Except.ok p2
      ∧ p2.timeline = (emptyProfile "q").timeline)
    ∧ process510kRow [("decision_date", Value.vStr "garbage")] (emptyProfile "q")
        = Except.error "could not parse date string" := by
  constructor
  · exact (c5_missing_date_skipped [] (emptyProfile "q")).2.1 (by decide)
  · exact (c5_missing_date_skipped [("decision_date", Value.vStr "garbage")]
      (emptyProfile "q")).2.2.2 "garbage" (by decide) (by decide)

set_option maxRecDepth 10000 in
/-- Claim C6 counterexample: for a two-element product-problems list the
generated description carries the generic placeholder, not the joined list:
`pd.isna` on the list yields an element-wise array whose truth test raises
ValueError, and the except clause substitutes the placeholder.  This refutes
"a list is joined into one string". -/
theorem c6_counterexample :
    (processEventRow [("date_received", Value.vStr "2024-02-15"),
        ("product_problems", Value.vList ["A", "B"])] (emptyProfile "q")).map
      (fun p => p.timeline.map (fun e => e.description))
    = Except.ok ["Adverse Event: Adverse event..."]
    ∧ pyIn "A, B" "Adverse Event: Adverse event..." = false := by
  exact ⟨rfl, by decide⟩

/-- Claim C6 as amended: for every adverse-event record carrying a parseable
timestamp, processing never raises on any shape of the product-problem field
and the timeline description embeds its normalization, where: a string (even
the empty string) is used as is, null becomes the generic placeholder, a
one-element list is reduced to its element, a list of two or more elements
(and the empty list) becomes the generic placeholder rather than a join, a
truthy non-string scalar is stringified, and a falsy one becomes the
placeholder. -/
theorem c6_problem_normalization (row : Row) (p : DeviceProfile) (d : Nat)
    (hd : pdToDatetime (Row.get row "date_received") = Except.ok d) :
    (∃ p2, processEventRow row p = Except.ok p2
      ∧ p2.timeline = p.timeline ++ [⟨d, "ADVERSE_EVENT",
          "Adverse Event: "
            ++ (normalizeProblem (Row.getD row "product_problems"
                  (.vStr "Adverse event"))).take 50
            ++ "..."⟩])
    ∧ (∀ s, normalizeProblem (.vStr s) = s)
    ∧ normalizeProblem .vNull = "Adverse event"
    ∧ (∀ x, normalizeProblem (.vList [x]) = x)
    ∧ (∀ x y rest, normalizeProblem (.vList (x :: y :: rest)) = "Adverse event")
    ∧ normalizeProblem (.vList []) = "Adverse event"
    ∧ (∀ n, n ≠ 0 → normalizeProblem (.vNat n) = toString n)
    ∧ normalizeProblem (.vNat 0) = "Adverse event" := by
  have hnotna : (Row.get row "date_received").notna = true := by
    cases hv : Row.get row "date_received"
    case vNull => rw [hv] at hd; simp [pdToDatetime] at hd
    all_goals rfl
  refine ⟨?_, fun s => rfl, rfl, fun x => rfl, fun x y rest => rfl, rfl,
    fun n hn => by simp [normalizeProblem, hn], rfl⟩
  unfold processEventRow
  rw [hnotna, hd]
  exact ⟨_, rfl, by split_ifs <;> rfl⟩

set_option maxRecDepth 10000 in
/-- Witness for C6: a record with a null product-problems field yields the
placeholder description and no error. -/
theorem c6_problem_normalization_witness :
    (processEventRow [("date_received", Value.vStr "2024-02-15"),
        ("product_problems", Value.vNull)] (emptyProfile "q")).map
      (fun p => p.timeline.map (fun e => e.description))
    = Except.ok ["Adverse Event: Adverse event..."] := by
  obtain ⟨p2, h1, h2⟩ := (c6_problem_normalization
    [("date_received", Value.vStr "2024-02-15"), ("product_problems", Value.vNull)]
    (emptyProfile "q") 20240215 (by rfl)).1
  rw [h1]
  simp only [Except.map]
  rw [h2]
  rfl

/-- Keys already accumulated stay in the `unionKeys` fold. -/
theorem unionFold_mono (rs : List Row) (acc : List String) (k : String) (hk : k ∈ acc) :
    k ∈ rs.foldl (fun acc r => acc ++ (rowKeys r).filter (fun k => k ∉ acc)) acc := by
  induction rs generalizing acc with
  | nil => simpa using hk
  | cons r rs ih => exact ih _ (List.mem_append_left _ hk)

/-- Every key of every record appears in the `unionKeys` fold. -/
theorem mem_unionFold (rs : List Row) (acc : List String) (r : Row) (hr : r ∈ rs)
    (k : String) (hk : k ∈ rowKeys r) :
    k ∈ rs.foldl (fun acc r => acc ++ (rowKeys r).filter (fun k => k ∉ acc)) acc := by
  induction rs generalizing acc with
  | nil => cases hr
  | cons r0 rs ih =>
    rw [List.foldl_cons]
    rcases List.mem_cons.mp hr with rfl | hr2
    · apply unionFold_mono
      by_cases h : k ∈ acc
      · exact List.mem_append_left _ h
      · refine List.mem_append_right _ (List.mem_filter.mpr ⟨hk, ?_⟩)
        simpa using h
    · exact ih _ hr2

/-- Looking a key up among the null paddings finds null. -/
theorem find_pad (cs : List String) (c : String) (hc : c ∈ cs) :
    Row.find (cs.map (fun s => (s, Value.vNull))) c = some Value.vNull := by
  induction cs with
  | nil => cases hc
  | cons c0 cs ih =>
    by_cases h : c0 = c
    · subst h
      simp [Row.find, List.find?]
    · rcases List.mem_cons.mp hc with rfl | hc2
      · exact absurd rfl h
      · have hb : (c0 == c) = false := by simpa using h
        simpa [Row.find, List.find?, hb] using ih hc2

/-- Looking up a key a row does not bind skips to the padding. -/
theorem find_append_of_not_mem (r pad : Row) (c : String) (hc : c ∉ rowKeys r) :
    Row.find (r ++ pad) c = Row.find pad c := by
  induction r with
  | nil => rfl
  | cons kv r ih =>
    have h1 : ¬ kv.1 = c := fun h => hc (by simp [rowKeys, h])
    have hb : (kv.1 == c) = false := by simpa using h1
    have hc2 : c ∉ rowKeys r := fun h => hc (by simp [rowKeys] at h ⊢; exact Or.inr h)
    simpa [Row.find, List.find?, hb] using ih hc2

/-- Claim C7 counterexample: with one raw 510k record carrying the field
extra_field, the output column set contains extra_field, which is not in the
expected 510K display set: `add_missing_columns` only adds missing expected
columns, it never drops raw ones, so the output field set is a superset of,
not exactly, the expected set. -/
theorem c7_counterexample :
    "extra_field" ∈ (processResults (some [[("extra_field", Value.vStr "x")]]) "510k").cols
    ∧ "extra_field" ∉ displayColumns "510k" := by
  decide

/-- Claim C7 as amended: for every source and every decoded result list of
flat records, the normalized output contains every expected column for that
source, keeps one row per record, materializes every expected field that no
raw record carries as an explicit null binding in every row, and retains
every raw field (so the column set is a superset of the expected set); a
response without a result list yields the empty table without error. -/
theorem c7_normalize_superset (source : String) (results : List Row) :
    (∀ c ∈ displayColumns source, c ∈ (processResults (some results) source).cols)
    ∧ ((processResults (some results) source).rows.length = results.length)
    ∧ (∀ r ∈ (processResults (some results) source).rows,
        ∀ c ∈ displayColumns source, c ∉ unionKeys results →
          Row.find r c = some Value.vNull)
    ∧ (∀ r ∈ results, ∀ k ∈ rowKeys r, k ∈ (processResults (some results) source).cols)
    ∧ processResults none source = Table.empty := by
  refine ⟨?_, ?_, ?_, ?_, rfl⟩
  · intro c hc
    show c ∈ unionKeys results ++ (displayColumns source).filter (fun c => c ∉ unionKeys results)
    by_cases h : c ∈ unionKeys results
    · exact List.mem_append_left _ h
    · exact List.mem_append_right _ (List.mem_filter.mpr ⟨hc, by simpa using h⟩)
  · exact List.length_map _ _
  · intro r hr c hc hcu
    simp only [processResults, addMissingColumns, jsonNormalize, List.mem_map] at hr
    obtain ⟨r0, hr0, rfl⟩ := hr
    have hkeys : c ∉ rowKeys r0 := fun h => hcu (mem_unionFold results [] r0 hr0 c h)
    rw [find_append_of_not_mem _ _ _ hkeys]
    exact find_pad _ _ (List.mem_filter.mpr ⟨hc, by simpa using hcu⟩)
  · intro r hr k hk
    exact List.mem_append_left _ (mem_unionFold results [] r hr k hk)

/-- Witness for C7: the expected column k_number is present in the output
for a record that does not carry it, and an absent result list yields the
empty table. -/
theorem c7_normalize_superset_witness :
    "k_number" ∈ (processResults (some [[("extra_field", Value.vStr "x")]]) "510k").cols
    ∧ processResults none "510k" = Table.empty := by
  constructor
  · exact (c7_normalize_superset "510k" [[("extra_field", Value.vStr "x")]]).1 "k_number"
      (by decide)
  · exact (c7_normalize_superset "510k" [[("extra_field", Value.vStr "x")]]).2.2.2.2

/-- Claim C9 counterexample: `filter_by_date` converts the date column of
the DataFrame the caller passed in, in place: after the call, the callers
table differs from the original (the date string cell has become a parsed
timestamp), refuting "the table the caller passed in is left completely
unchanged". -/
theorem c9_counterexample :
    (filterByDate ⟨["event_date_initiated"],
        [[("event_date_initiated", Value.vStr "2024-01-10")]]⟩ "RECALL" 0).1
      ≠ (⟨["event_date_initiated"],
        [[("event_date_initiated", Value.vStr "2024-01-10")]]⟩ : Table) := by
  decide

/-- Claim C9 as amended: `filter_by_date` is not pure.  When the source has
a mapped date field that is a column of the table, the call rewrites every
cell of that column of the callers table in place to its coerced timestamp
(null when unparseable) and returns the row filtering of that mutated
table; only when the source has no mapped date field, or the field is not a
column, is the input returned unchanged. -/
theorem c9_filter_by_date_mutates (t : Table) (source field : String) (cutoff : Nat) :
    (filterDateField source = none → filterByDate t source cutoff = (t, t))
    ∧ (filterDateField source = some field → field ∉ t.cols →
        filterByDate t source cutoff = (t, t))
    ∧ (filterDateField source = some field → field ∈ t.cols →
        (filterByDate t source cutoff).1.rows
          = t.rows.map (fun r => rowSet r field (pdToDatetimeCoerce (Row.get r field)))
        ∧ (filterByDate t source cutoff).2.rows
          = (filterByDate t source cutoff).1.rows.filter
              (fun r => dateGe (Row.get r field) cutoff)) := by
  refine ⟨fun h => ?_, fun h hf => ?_, fun h hf => ?_⟩
  · unfold filterByDate
    rw [h]
  · unfold filterByDate
    rw [h]
    dsimp only
    rw [if_neg hf]
  · unfold filterByDate
    rw [h]
    dsimp only
    rw [if_pos hf]
    exact ⟨rfl, rfl⟩

/-- Witness for C9: on a one-row recall table the callers date cell is
rewritten to the parsed timestamp by the call. -/
theorem c9_filter_by_date_mutates_witness :
    (filterByDate ⟨["event_date_initiated"],
        [[("event_date_initiated", Value.vStr "2024-01-10")]]⟩ "RECALL" 0).1.rows
      = [[("event_date_initiated", Value.vNat 20240110)]] := by
  have h := (c9_filter_by_date_mutates ⟨["event_date_initiated"],
      [[("event_date_initiated", Value.vStr "2024-01-10")]]⟩
      "RECALL" "event_date_initiated" 0).2.2 (by rfl) (by decide)
  rw [h.1]
  rfl

/-- The inner pagination loop respects the budget: every request asks for
at most the remaining budget, so when no page overruns its requested limit,
the accumulated record list never exceeds `maxRecords`. -/
theorem fetchLoop_length_le (net : Net)
    (hnet : ∀ q s l rs, net q s l = some rs → rs.length ≤ l)
    (q : String) (maxRecords : Nat) (fuel : Nat) :
    ∀ (acc : List Row) (log : List Call) (skip : Nat), acc.length ≤ maxRecords →
      (fetchLoop net q maxRecords acc log skip fuel).1.length ≤ maxRecords := by
  induction fuel with
  | zero => intro acc log skip h; exact h
  | succ fuel ih =>
    intro acc log skip h
    rw [fetchLoop]
    split
    · dsimp only
      split
      · exact h
      · exact h
      · next rs hns heq =>
        have hpage := hnet _ _ _ _ heq
        have hlen : (acc ++ rs).length ≤ maxRecords := by
          rw [List.length_append]
          have hmin := min_le_right 100 (maxRecords - acc.length)
          omega
        split
        · exact hlen
        · exact ih _ _ _ hlen
    · exact h

/-- The strategy loop respects the budget whenever the inner loop does. -/
theorem strategyLoop_length_le (net : Net)
    (hnet : ∀ q s l rs, net q s l = some rs → rs.length ≤ l)
    (maxRecords fuel : Nat) :
    ∀ (queries : List String) (acc : List Row) (log : List Call),
      acc.length ≤ maxRecords →
      (strategyLoop net maxRecords queries acc log fuel).1.length ≤ maxRecords := by
  intro queries
  induction queries with
  | nil => intro acc log h; exact h
  | cons q rest ih =>
    intro acc log h
    rw [strategyLoop]
    split
    · exact fetchLoop_length_le net hnet q maxRecords fuel acc log 0 h
    · exact ih _ _ (fetchLoop_length_le net hnet q maxRecords fuel acc log 0 h)

/-- Date standardization does not change the number of rows. -/
theorem convertFold_length (fields : List String) (t : Table) :
    ((fields.foldl (fun t f => if f ∈ t.cols then convertDateColumn t f else t) t)).rows.length
      = t.rows.length := by
  induction fields generalizing t with
  | nil => rfl
  | cons f fs ih =>
    rw [List.foldl_cons, ih]
    split
    · simp [convertDateColumn]
    · rfl

/-- The processed table has exactly one row per accumulated record. -/
theorem processResultsEnh_length (results : List Row) (source : String) (now : Nat) :
    (processResultsEnh results source now).rows.length = results.length := by
  unfold processResultsEnh
  split
  · next h =>
    have hnil : results = [] := by simpa using h
    simp [hnil, Table.empty]
  · simp [List.length_map, convertFold_length, jsonNormalize]

/-- Claim C8: the retriever advances to the next strategy only when the
accumulated count after finishing the current strategy is below 80 percent
of `maxRecords`: whenever the count reaches the threshold, the run stops
with the current strategy and the remaining strategies are never processed
(first conjunct); in particular, with `maxRecords = 50` and a stubbed
network whose first strategy yields 45 records at once, the complete call
log is a single call for the first strategy, so the second and third
strategies trigger no network calls at all (second conjunct). -/
theorem c8_strategy_cutoff :
    (∀ (net : Net) (maxRecords : Nat) (q : String) (rest : List String)
        (acc : List Row) (log : List Call) (fuel : Nat),
      10 * (fetchLoop net q maxRecords acc log 0 fuel).1.length ≥ 8 * maxRecords →
      strategyLoop net maxRecords (q :: rest) acc log fuel
        = fetchLoop net q maxRecords acc log 0 fuel)
    ∧ (getComprehensiveData
        (fun q skip _ => if q == "s1" && skip == 0
          then some (List.replicate 45 ([("product_description", Value.vStr "pump")] : Row))
          else none)
        "recall" ["s1", "s2", "s3"] 50 9 0).2 = [("s1", 0, 50)] := by
  constructor
  · intro net maxRecords q rest acc log fuel h
    rw [strategyLoop]
    rw [if_pos h]
  · rfl

/-- Witness for C8: with the stubbed network and budget 50, the 45-record
first strategy reaches the 80 percent threshold, so the strategy loop stops
after the first strategy. -/
theorem c8_strategy_cutoff_witness :
    strategyLoop
      (fun q skip _ => if q == "s1" && skip == 0
        then some (List.replicate 45 ([("product_description", Value.vStr "pump")] : Row))
        else none)
      50 ["s1", "s2", "s3"] [] [] 9
    = fetchLoop
      (fun q skip _ => if q == "s1" && skip == 0
        then some (List.replicate 45 ([("product_description", Value.vStr "pump")] : Row))
        else none)
      "s1" 50 [] [] 0 9 := by
  exact c8_strategy_cutoff.1 _ 50 "s1" ["s2", "s3"] [] [] 9 (by decide)

/-- Claim C10: whenever every fetched page contains at most the number of
records requested in its limit parameter, the table returned by
`get_comprehensive_data` contains at most `maxRecords` records in total,
accumulated across all strategies and all pages. -/
theorem c10_budget_respected (net : Net) (source : String) (queries : List String)
    (maxRecords fuel now : Nat)
    (hnet : ∀ q s l rs, net q s l = some rs → rs.length ≤ l) :
    (getComprehensiveData net source queries maxRecords fuel now).1.rows.length
      ≤ maxRecords := by
  unfold getComprehensiveData
  split
  · rw [processResultsEnh_length]
    exact strategyLoop_length_le net hnet maxRecords fuel queries [] [] (by simp)
  · simp [Table.empty]

/-- Witness for C10: a network answering every request with exactly the
requested number of records keeps the result within a budget of 7. -/
theorem c10_budget_respected_witness :
    (getComprehensiveData (fun _ _ l => some (List.replicate l ([] : Row)))
      "recall" ["a", "b"] 7 5 0).1.rows.length ≤ 7 := by
  exact c10_budget_respected _ "recall" ["a", "b"] 7 5 0
    (by intro q s l rs h; cases h; simp)

/-- Witness for C3: the flagged-event monotonicity instantiated at one
concrete flagged adverse event over the empty profile. -/
theorem c3_risk_score_monotone_bounded_witness :
    Row.get [("adverse_event_flag", Value.vStr "Y")] "adverse_event_flag" = Value.vStr "Y"
    ∧ calculateRiskScore (emptyProfile "q") ≤ calculateRiskScore
        { emptyProfile "q" with adverse_events := [[("adverse_event_flag", Value.vStr "Y")]] } := by
  constructor
  · decide
  · exact c3_risk_score_monotone_bounded.2.1 (emptyProfile "q")
      [("adverse_event_flag", Value.vStr "Y")] (by decide)

end FDA
